import Mathlib

/-!
Verification of the pykalshi repository's request pipeline, pagination
driver, signing path handling, response-to-error mapping and orderbook
models, as a shallow embedding in Lean.

Sources embedded:
  * `kalshi_api/client.py`   — synchronous `KalshiClient` (`_handle_response`,
    `_sign_request` message construction, `_get_headers` path stripping, `get`).
  * `pykalshi/aclient.py`    — `AsyncKalshiClient` (`_request` retry loop,
    `paginated_get` cursor pagination).
  * `kalshi_api/models.py`   — `OrderbookLevel`, `Orderbook`,
    `OrderbookResponse.best_yes_bid` / `best_no_bid`.
  * `kalshi_api/exceptions.py` — the error taxonomy carried by `KalshiErr`.

Machine-level conventions of the embedding:
  * JSON values are the inductive `JVal`; a parsed JSON object body is an
    association list `JObj` (Python dict with string keys; `dict.get` is
    `List.lookup`, first match).
  * Python truthiness of JSON values is `pyTruthy`; `x or y` on an optional
    lookup result is `pyOrDefault` / `pyOrOpt`.
  * The HTTP transport is a list of `TransportEvent`s consumed one per
    dispatched request: a timeout, a connection error, or a response.
    Pipeline functions return `none` when the event list is exhausted
    (a model artifact: the driver asked for more responses than supplied).
  * Sleeps (retry backoff, rate-limiter waits) have no observable effect on
    outcomes or call counts, so backoff durations and the rate limiter are
    not modelled; `Retry-After` headers are likewise dropped.
-/

namespace Kalshi

/-- JSON values (the shapes relevant to this client: strings, integers,
arrays and objects). -/
inductive JVal where
  | str : String → JVal
  | num : Int → JVal
  | arr : List JVal → JVal
  | obj : List (String × JVal) → JVal

/-- A parsed JSON object body: a Python dict with string keys. -/
abbrev JObj := List (String × JVal)

/-- Python truthiness of a JSON value (`bool(x)`): empty string, zero,
empty list and empty dict are falsy. -/
def pyTruthy : JVal → Bool
  | .str s => s != ""
  | .num n => n != 0
  | .arr l => !l.isEmpty
  | .obj l => !l.isEmpty

/-- Python `a or b` where `a` is a `dict.get` result (possibly `None`) and
`b` is already a value: `a` if present and truthy, else `b`. -/
def pyOrDefault (a : Option JVal) (b : JVal) : JVal :=
  match a with
  | some v => if pyTruthy v then v else b
  | none => b

/-- Python `a or b` where both operands are `dict.get` results. -/
def pyOrOpt (a b : Option JVal) : Option JVal :=
  match a with
  | some v => if pyTruthy v then some v else b
  | none => b

/-- `error_data.get("message") or error_data.get("error_message", "Unknown Error")`
from `KalshiClient._handle_response`. -/
def errMessage (j : JObj) : JVal :=
  pyOrDefault (j.lookup "message") ((j.lookup "error_message").getD (JVal.str "Unknown Error"))

/-- `error_data.get("code") or error_data.get("error_code")`
from `KalshiClient._handle_response`. -/
def errCode (j : JObj) : Option JVal :=
  pyOrOpt (j.lookup "code") (j.lookup "error_code")

/-- `code in ("insufficient_funds", "insufficient_balance")`. A non-string
JSON value never equals either string literal. -/
def isInsufficientCode : Option JVal → Bool
  | some (.str "insufficient_funds") => true
  | some (.str "insufficient_balance") => true
  | _ => false

/-- An HTTP response as the client observes it: the integer status code,
the result of attempting to parse the body as JSON (`none` = not valid
JSON, so `response.json()` raises `ValueError`), and the raw body text. -/
structure Response where
  status_code : Nat
  json : Option JObj
  text : String

/-- The extracted exchange error code of a response: the parsed body's
`code`/`error_code` field, or `None` when the body is not JSON
(mirrors the `try`/`except ValueError` of `_handle_response`). -/
def extractedCode (r : Response) : Option JVal :=
  match r.json with
  | some j => errCode j
  | none => none

/-- The extracted error message of a response: the parsed body's
`message`/`error_message` field with the `"Unknown Error"` default, or the
raw response text when the body is not JSON. -/
def extractedMessage (r : Response) : JVal :=
  match r.json with
  | some j => errMessage j
  | none => .str r.text

/-- The error taxonomy of `kalshi_api/exceptions.py` (each API error carries
status, message and optional exchange code), plus the rate-limit error
raised by the async pipeline (which also carries method and endpoint, per
its construction in `AsyncKalshiClient._request`), plus the transport
exceptions (`httpx.TimeoutException` / `httpx.ConnectError`, propagated
unwrapped). -/
inductive KalshiErr where
  | authentication (status : Nat) (message : JVal) (code : Option JVal)
  | resourceNotFound (status : Nat) (message : JVal) (code : Option JVal)
  | insufficientFunds (status : Nat) (message : JVal) (code : Option JVal)
  | apiError (status : Nat) (message : JVal) (code : Option JVal)
  | rateLimit (status : Nat) (message : JVal) (method : String) (endpoint : String)
  | transportTimeout
  | transportConnect

/-- One event produced by the underlying HTTP transport for one dispatched
request. -/
inductive TransportEvent where
  | timeout
  | connectError
  | response (r : Response)

/-- Response classification shared by the response handlers: status `< 400`
returns the parsed body (`none` when `response.json()` raises on a success
body); otherwise message/code are extracted from the parsed error body
(falling back to the raw text with no code), and the status is mapped to
the error taxonomy in the order of `KalshiClient._handle_response`:
401/403, then 404, then the insufficient-funds code check, then generic. -/
def respond (status_code : Nat) (json : Option JObj) (text : String) :
    Option (Except KalshiErr JObj) :=
  if status_code < 400 then
    json.map Except.ok
  else
    let md : JVal × Option JVal :=
      match json with
      | some j => (errMessage j, errCode j)
      | none => (JVal.str text, none)
    if status_code = 401 ∨ status_code = 403 then
      some (.error (.authentication status_code md.1 md.2))
    else if status_code = 404 then
      some (.error (.resourceNotFound status_code md.1 md.2))
    else if isInsufficientCode md.2 then
      some (.error (.insufficientFunds status_code md.1 md.2))
    else
      some (.error (.apiError status_code md.1 md.2))

namespace KalshiClient

/-- `KalshiClient._handle_response` (kalshi_api/client.py). The Python code
first computes `status_code = int(response.status_code or 500)`: a falsy
(zero/absent) status is coerced to 500. -/
def _handle_response (r : Response) : Option (Except KalshiErr JObj) :=
  respond (if r.status_code = 0 then 500 else r.status_code) r.json r.text

/-- `KalshiClient.get`: a single dispatch of the request (no retry, no rate
limiting in the synchronous client) followed by `_handle_response`.  A
transport exception propagates unwrapped.  The result pairs the outcome
with the number of HTTP calls issued. -/
def get (_endpoint : String) (events : List TransportEvent) :
    Option (Except KalshiErr JObj × Nat) :=
  match events with
  | [] => none
  | .timeout :: _ => some (.error .transportTimeout, 1)
  | .connectError :: _ => some (.error .transportConnect, 1)
  | .response r :: _ =>
    match _handle_response r with
    | none => none
    | some out => some (out, 1)

end KalshiClient

/-! Request signing (`KalshiClient._sign_request` / `_get_headers`).
The signed message is the string `timestamp + method + path` where the path
is `"/trade-api/v2" + urlparse(endpoint).path`.  `urlparse` is modelled
after CPython's `urlsplit`/`urlparse`: optional scheme (a leading
alphabetic-then-scheme-chars run before the first `:`), optional `//`
netloc (up to the first `/`, `?` or `#`), fragment split at the first `#`,
query split at the first `?`, and the `;`-params split on the last path
segment.  (CPython's control-character stripping and bracketed-host
validation are not modelled.) -/

/-- Characters permitted in a URL scheme after the first letter. -/
def schemeChar (c : Char) : Bool :=
  c.isAlphanum || c == '+' || c == '-' || c == '.'

/-- A valid scheme candidate: nonempty, starts with a letter, all scheme
characters. -/
def validScheme : List Char → Bool
  | [] => false
  | c :: rest => c.isAlpha && (c :: rest).all schemeChar

/-- Drop a leading `scheme:` when present (CPython `urlsplit` scheme split:
requires a `:` at position `> 0` with only scheme characters before it —
`cs.takeWhile (· != ':')` is the run before the first `:`, and the run is
shorter than `cs` exactly when a `:` occurs). -/
def splitScheme (cs : List Char) : List Char :=
  if (cs.takeWhile (· != ':')).length < cs.length ∧ validScheme (cs.takeWhile (· != ':'))
  then cs.drop ((cs.takeWhile (· != ':')).length + 1)
  else cs

/-- Characters that are part of a netloc (the netloc ends at the first
`/`, `?` or `#`). -/
def netChar (c : Char) : Bool :=
  c != '/' && c != '?' && c != '#'

/-- Drop a leading `//netloc` when present. -/
def splitNetloc (cs : List Char) : List Char :=
  match cs with
  | c₁ :: c₂ :: rest => if c₁ = '/' ∧ c₂ = '/' then rest.dropWhile netChar else cs
  | _ => cs

/-- Keep everything before the first `#` (fragment split). -/
def splitFragment (cs : List Char) : List Char :=
  cs.takeWhile (· != '#')

/-- Keep everything before the first `?` (query split). -/
def splitQuery (cs : List Char) : List Char :=
  cs.takeWhile (· != '?')

/-- CPython `urlparse`'s params split: when the remaining path contains a
`;`, drop from the first `;` of the last `/`-segment onwards. -/
def splitParams (cs : List Char) : List Char :=
  if ';' ∈ cs then
    if '/' ∈ cs then
      let tl := (cs.reverse.takeWhile (· != '/')).reverse
      if ';' ∈ tl then cs.take (cs.length - tl.length) ++ tl.takeWhile (· != ';') else cs
    else cs.takeWhile (· != ';')
  else cs

/-- `urlparse(s).path`. -/
def urlparse_path (s : String) : String :=
  ⟨splitParams (splitQuery (splitFragment (splitNetloc (splitScheme s.data))))⟩

/-- An endpoint with its query string removed: everything before the first
`?`. -/
def strip_query (s : String) : String :=
  ⟨s.data.takeWhile (· != '?')⟩

/-- The message signed by `KalshiClient._sign_request`:
`f"{timestamp}{method}{path}"`. -/
def sign_message (timestamp method path : String) : String :=
  timestamp ++ method ++ path

/-- The full path handed to `_sign_request` by `_get_headers`:
`"/trade-api/v2" + urlparse(endpoint).path`. -/
def signed_path (endpoint : String) : String :=
  "/trade-api/v2" ++ urlparse_path endpoint

/-- The request URL built by `KalshiClient.get`/`post`/`delete`:
`f"{self.api_base}{endpoint}"` — the endpoint is used in full, query
string included. -/
def request_url (api_base endpoint : String) : String :=
  api_base ++ endpoint

namespace AsyncKalshiClient

/-- Modelled from the spec: `_RETRYABLE_STATUS_CODES` lives in
`pykalshi/_base.py`, which is not among the provided sources; §4.3 of the
spec fixes the retryable set as "at minimum: 429 Too Many Requests, and
5xx server errors". -/
def retryable_status (s : Nat) : Bool :=
  s == 429 || (500 ≤ s && s ≤ 599)

/-- The attempt loop of `AsyncKalshiClient._request`
(`for attempt in range(self.max_retries + 1)`), consuming one transport
event per dispatched request.  A timeout or connection error is re-raised
once attempts are exhausted, else retried after a sleep.  A response with a
non-retryable status is returned; a retryable status is retried while
attempts remain; once exhausted, a 429 raises the rate-limit error
(carrying method and endpoint) and any other retryable status is returned
as-is.  The `Nat` in the result counts HTTP calls issued. -/
def _requestAux (method endpoint : String) (maxRetries : Nat) :
    Nat → List TransportEvent → Option (Except KalshiErr Response × Nat)
  | _, [] => none
  | attempt, .timeout :: rest =>
    if attempt = maxRetries then some (.error .transportTimeout, 1)
    else
      match _requestAux method endpoint maxRetries (attempt + 1) rest with
      | none => none
      | some (o, n) => some (o, n + 1)
  | attempt, .connectError :: rest =>
    if attempt = maxRetries then some (.error .transportConnect, 1)
    else
      match _requestAux method endpoint maxRetries (attempt + 1) rest with
      | none => none
      | some (o, n) => some (o, n + 1)
  | attempt, .response r :: rest =>
    if retryable_status r.status_code = false then some (.ok r, 1)
    else if attempt = maxRetries then
      if r.status_code = 429 then
        some (.error (.rateLimit 429 (.str "Rate limit exceeded after retries")
          method endpoint), 1)
      else some (.ok r, 1)
    else
      match _requestAux method endpoint maxRetries (attempt + 1) rest with
      | none => none
      | some (o, n) => some (o, n + 1)

/-- `AsyncKalshiClient._request`: the attempt loop started at attempt 0. -/
def _request (method endpoint : String) (maxRetries : Nat)
    (events : List TransportEvent) : Option (Except KalshiErr Response × Nat) :=
  _requestAux method endpoint maxRetries 0 events

/-- Modelled from the spec: `_BaseKalshiClient._handle_response` lives in
`pykalshi/_base.py`, which is not among the provided sources.  §7 of the
spec gives it the same taxonomy and extraction as the synchronous handler
(authentication for 401/403, not-found for 404, insufficient-funds code,
generic otherwise; message/code from the parsed error body, falling back to
raw response text with no code; status `< 400` returns the parsed body), so
it is the shared `respond` applied to the raw status code.  The spec's
order-rejected error has no specified trigger and is not modelled. -/
def _handle_response (r : Response) : Option (Except KalshiErr JObj) :=
  respond r.status_code r.json r.text

/-- `AsyncKalshiClient.get`: `_request` followed by `_handle_response`. -/
def get (maxRetries : Nat) (endpoint : String) (events : List TransportEvent) :
    Option (Except KalshiErr JObj × Nat) :=
  match _request "GET" endpoint maxRetries events with
  | none => none
  | some (.error e, n) => some (.error e, n)
  | some (.ok r, n) =>
    match _handle_response r with
    | none => none
    | some out => some (out, n)

/-- `response.get(response_key, [])` followed by `all_items.extend(...)`:
an absent key contributes no items, an array contributes its elements, and
a non-iterable value makes `extend` raise (modelled as `none`). -/
def pageItems (page : JObj) (key : String) : Option (List JVal) :=
  match page.lookup key with
  | none => some []
  | some (.arr l) => some l
  | some _ => none

/-- `response.get("cursor", "")`. -/
def pageCursor (page : JObj) : JVal :=
  (page.lookup "cursor").getD (.str "")

/-- `{k: v for k, v in params.items() if v is not None}` — the query
parameters actually sent. -/
def filterNone (params : List (String × Option JVal)) : List (String × JVal) :=
  params.filterMap fun kv => kv.2.map (fun v => (kv.1, v))

/-- Python `d[k] = v` on an (insertion-ordered, duplicate-free) dict:
replace the first binding of `k`, else append. -/
def setKey (l : List (String × Option JVal)) (k : String) (v : Option JVal) :
    List (String × Option JVal) :=
  match l with
  | [] => [(k, v)]
  | kv :: t => if kv.1 = k then (k, v) :: t else kv :: setKey t k v

/-- `AsyncKalshiClient.paginated_get`, with `self.get` abstracted as an
oracle yielding the successive successfully-parsed page responses.  Each
loop iteration sends the non-`None` entries of the current params, consumes
one page, accumulates its `response_key` items, reads its cursor, and stops
when `fetch_all` is false or the cursor is falsy; otherwise it sets
`params["cursor"]` (on the local copy made by `params = dict(params)`) and
continues.  The result is (items, number of requests, the query-parameter
list sent on each request, in order); `none` when the supplied pages run
out or a page's `response_key` value is not an array. -/
def paginated_get (pages : List JObj) (key : String)
    (params : List (String × Option JVal)) (fetchAll : Bool) :
    Option (List JVal × Nat × List (List (String × JVal))) :=
  match pages with
  | [] => none
  | page :: rest =>
    let sent := filterNone params
    match pageItems page key with
    | none => none
    | some items =>
      if fetchAll = false ∨ pyTruthy (pageCursor page) = false then
        some (items, 1, [sent])
      else
        match paginated_get rest key (setKey params "cursor" (some (pageCursor page))) fetchAll with
        | none => none
        | some (its, n, ss) => some (items ++ its, n + 1, sent :: ss)

/-- A store of Python dict objects, for observing mutation: each cell is
one dict; callers hold references (indices) into the store. -/
abbrev Store := List (List (String × Option JVal))

/-- The loop of `paginated_get` with the local `params` dict held in a
store cell at `localRef`, so that the `params["cursor"] = cursor` item
assignment is an explicit store update. -/
def pg_loop (key : String) (fetchAll : Bool) (localRef : Nat) :
    List JObj → Store → Option (List JVal × Nat) × Store
  | [], store => (none, store)
  | page :: rest, store =>
    let params := store.getD localRef []
    match pageItems page key with
    | none => (none, store)
    | some items =>
      if fetchAll = false ∨ pyTruthy (pageCursor page) = false then
        (some (items, 1), store)
      else
        let store' := store.set localRef (setKey params "cursor" (some (pageCursor page)))
        match pg_loop key fetchAll localRef rest store' with
        | (none, s) => (none, s)
        | (some (its, n), s) => (some (items ++ its, n + 1), s)

/-- `paginated_get` against the store model: the caller passes a reference
to its params dict; the first statement `params = dict(params)` allocates a
fresh copy at the end of the store, and the loop mutates only that copy. -/
def paginated_get_heap (pages : List JObj) (key : String) (fetchAll : Bool)
    (store : Store) (callerRef : Nat) : Option (List JVal × Nat) × Store :=
  let callerParams := store.getD callerRef []
  pg_loop key fetchAll store.length pages (store ++ [callerParams])

end AsyncKalshiClient

/-! Orderbook models (`kalshi_api/models.py`).  A raw orderbook side is an
optional list of `[price, quantity]` rows; rows are modelled as integer
pairs. -/

/-- `OrderbookLevel`: a single price level.  The pydantic model declares
both fields as plain `int` with no validators or bounds. -/
structure OrderbookLevel where
  price : Int
  quantity : Int

/-- Pydantic validation of an `OrderbookLevel` from integer field values:
with no declared constraints it always succeeds and stores the fields
verbatim. -/
def OrderbookLevel.model_validate (price quantity : Int) : Option OrderbookLevel :=
  some ⟨price, quantity⟩

/-- `Orderbook`: optional yes/no sides of `[price, quantity]` rows. -/
structure Orderbook where
  yes : Option (List (Int × Int)) := none
  no : Option (List (Int × Int)) := none

/-- `OrderbookResponse`. -/
structure OrderbookResponse where
  orderbook : Orderbook

/-- Python `max` over a (nonempty) list. -/
def pyMax : List Int → Option Int
  | [] => none
  | x :: xs => some (xs.foldl max x)

/-- `OrderbookResponse.yes_levels`. -/
def OrderbookResponse.yes_levels (r : OrderbookResponse) : List OrderbookLevel :=
  match r.orderbook.yes with
  | none => []
  | some l => if l.isEmpty then [] else l.map fun p => ⟨p.1, p.2⟩

/-- `OrderbookResponse.best_yes_bid`: `None` when the yes side is falsy
(absent or empty), else the maximum price among the yes rows. -/
def OrderbookResponse.best_yes_bid (r : OrderbookResponse) : Option Int :=
  match r.orderbook.yes with
  | none => none
  | some l => if l.isEmpty then none else pyMax (l.map Prod.fst)

/-- `OrderbookResponse.best_no_bid`. -/
def OrderbookResponse.best_no_bid (r : OrderbookResponse) : Option Int :=
  match r.orderbook.no with
  | none => none
  | some l => if l.isEmpty then none else pyMax (l.map Prod.fst)

end Kalshi

/-! ## Theorems -/

namespace Kalshi

/-! ### Generic list facts used below -/

theorem foldl_max_init_le (x : Int) (xs : List Int) : x ≤ xs.foldl max x := by
  induction xs generalizing x with
  | nil => exact le_refl x
  | cons y ys ih =>
    calc x ≤ max x y := le_max_left x y
    _ ≤ ys.foldl max (max x y) := ih (max x y)

theorem foldl_max_mem (x : Int) (xs : List Int) : xs.foldl max x ∈ x :: xs := by
  induction xs generalizing x with
  | nil => simp [List.foldl]
  | cons y ys ih =>
    have h := ih (max x y)
    have hfold : (y :: ys).foldl max x = ys.foldl max (max x y) := rfl
    rw [hfold]
    rcases List.mem_cons.mp h with h' | h'
    · rcases max_choice x y with hm | hm
      · rw [h', hm]; exact List.mem_cons_self _ _
      · rw [h', hm]; exact List.mem_cons_of_mem _ (List.mem_cons_self _ _)
    · exact List.mem_cons_of_mem _ (List.mem_cons_of_mem _ h')

theorem foldl_max_le_of_mem {a : Int} {xs : List Int} (x : Int) (h : a ∈ xs) :
    a ≤ xs.foldl max x := by
  induction xs generalizing x with
  | nil => cases h
  | cons y ys ih =>
    rcases List.mem_cons.mp h with rfl | h'
    · calc a ≤ max x a := le_max_right x a
      _ ≤ ys.foldl max (max x a) := foldl_max_init_le (max x a) ys
    · exact ih (max x y) h'

theorem pyMax_spec {l : List Int} (h : l ≠ []) :
    ∃ m, pyMax l = some m ∧ m ∈ l ∧ ∀ a ∈ l, a ≤ m := by
  match l with
  | x :: xs =>
    refine ⟨xs.foldl max x, rfl, foldl_max_mem x xs, ?_⟩
    intro a ha
    rcases List.mem_cons.mp ha with rfl | ha'
    · exact foldl_max_init_le a xs
    · exact foldl_max_le_of_mem x ha'

/-! ### C7 — signature freshness under distinct timestamps -/

/-- C7: the message signed by `_sign_request` is the concatenation
`timestamp + method + path`, so two calls with the same method and path but
distinct timestamp strings sign distinct messages; consequently any
injective signing primitive (an idealization of RSA-PSS signing as a
collision-free function of the message) yields distinct signatures. -/
theorem sign_distinct_timestamps_distinct (method path ts₁ ts₂ : String)
    (h : ts₁ ≠ ts₂) :
    sign_message ts₁ method path ≠ sign_message ts₂ method path ∧
    ∀ sign : String → String, Function.Injective sign →
      sign (sign_message ts₁ method path) ≠ sign (sign_message ts₂ method path) := by
  have hmsg : sign_message ts₁ method path ≠ sign_message ts₂ method path := by
    intro he
    apply h
    have hd : (ts₁ ++ method ++ path).data = (ts₂ ++ method ++ path).data := by
      simpa [sign_message] using congrArg String.data he
    simp only [String.data_append, List.append_assoc] at hd
    exact String.ext (List.append_cancel_right hd)
  exact ⟨hmsg, fun sign hinj he => hmsg (hinj he)⟩

/-- C7 witness at concrete timestamps. -/
theorem sign_distinct_timestamps_distinct_witness :
    sign_message "1700000000000" "GET" "/trade-api/v2/markets" ≠
      sign_message "1700000000001" "GET" "/trade-api/v2/markets" ∧
    ∀ sign : String → String, Function.Injective sign →
      sign (sign_message "1700000000000" "GET" "/trade-api/v2/markets") ≠
        sign (sign_message "1700000000001" "GET" "/trade-api/v2/markets") :=
  sign_distinct_timestamps_distinct "GET" "/trade-api/v2/markets"
    "1700000000000" "1700000000001" (by decide)

/-! ### C9 — OrderbookLevel bounds are not enforced -/

/-- C9 counterexample: `OrderbookLevel` validation accepts price 150 and
quantity −5, both outside the claimed data-model bounds (price 1–99,
quantity ≥ 0), so the claimed invariant does not hold of every constructed
level. -/
theorem orderbook_level_bounds_cex :
    OrderbookLevel.model_validate 150 (-5) = some ⟨150, -5⟩ ∧
    ¬ (∀ l : OrderbookLevel, OrderbookLevel.model_validate 150 (-5) = some l →
        1 ≤ l.price ∧ l.price ≤ 99 ∧ 0 ≤ l.quantity) := by
  refine ⟨rfl, fun hall => ?_⟩
  have h := hall ⟨150, -5⟩ rfl
  exact absurd h.2.1 (by decide)

/-- C9 amended: pydantic declares both `OrderbookLevel` fields as plain
ints with no validators, so validation succeeds for every pair of integers
and stores the fields verbatim — the 1–99 price range and non-negative
quantity are documented conventions, not enforced constraints. -/
theorem orderbook_level_validate_unchecked :
    ∀ p q : Int, ∃ l : OrderbookLevel,
      OrderbookLevel.model_validate p q = some l ∧ l.price = p ∧ l.quantity = q :=
  fun p q => ⟨⟨p, q⟩, rfl, rfl, rfl⟩

/-! ### C8 — best bids are side maxima -/

/-- C8: on an orderbook response, when the yes (resp. no) side is present
and non-empty, `best_yes_bid` (resp. `best_no_bid`) is the maximum price
among that side's levels; when the side is absent or empty the query
returns `none`. -/
theorem best_bid_is_max_of_side (r : OrderbookResponse) :
    (∀ l, r.orderbook.yes = some l → l ≠ [] →
      ∃ m, r.best_yes_bid = some m ∧ m ∈ l.map Prod.fst ∧ ∀ p ∈ l.map Prod.fst, p ≤ m) ∧
    (∀ l, r.orderbook.no = some l → l ≠ [] →
      ∃ m, r.best_no_bid = some m ∧ m ∈ l.map Prod.fst ∧ ∀ p ∈ l.map Prod.fst, p ≤ m) ∧
    ((r.orderbook.yes = none ∨ r.orderbook.yes = some []) → r.best_yes_bid = none) ∧
    ((r.orderbook.no = none ∨ r.orderbook.no = some []) → r.best_no_bid = none) := by
  refine ⟨?_, ?_, ?_, ?_⟩
  · intro l hl hne
    have hmap : l.map Prod.fst ≠ [] := by simpa using hne
    obtain ⟨m, hm, hmem, hub⟩ := pyMax_spec hmap
    refine ⟨m, ?_, hmem, hub⟩
    simp [OrderbookResponse.best_yes_bid, hl, List.isEmpty_iff, hne, hm]
  · intro l hl hne
    have hmap : l.map Prod.fst ≠ [] := by simpa using hne
    obtain ⟨m, hm, hmem, hub⟩ := pyMax_spec hmap
    refine ⟨m, ?_, hmem, hub⟩
    simp [OrderbookResponse.best_no_bid, hl, List.isEmpty_iff, hne, hm]
  · rintro (h | h) <;> simp [OrderbookResponse.best_yes_bid, h]
  · rintro (h | h) <;> simp [OrderbookResponse.best_no_bid, h]

/-- C8 witness: a concrete two-level yes side with best bid 62 and an
absent no side. -/
theorem best_bid_is_max_of_side_witness :
    (∃ m, (OrderbookResponse.mk ⟨some [(50, 10), (62, 5)], none⟩).best_yes_bid = some m ∧
      m ∈ ([(50, 10), (62, 5)] : List (Int × Int)).map Prod.fst ∧
      ∀ p ∈ ([(50, 10), (62, 5)] : List (Int × Int)).map Prod.fst, p ≤ m) ∧
    (OrderbookResponse.mk ⟨some [(50, 10), (62, 5)], none⟩).best_no_bid = none :=
  ⟨(best_bid_is_max_of_side ⟨⟨some [(50, 10), (62, 5)], none⟩⟩).1
      [(50, 10), (62, 5)] rfl (by decide),
   (best_bid_is_max_of_side ⟨⟨some [(50, 10), (62, 5)], none⟩⟩).2.2.2 (Or.inl rfl)⟩

/-! ### C4 — 429 exhaustion raises the rate-limit error -/

/-- C4: with max retries 2 and a transport answering 429 on every call,
`_request` raises the rate-limit error after exactly 3 HTTP calls
(1 initial + 2 retries), and the error carries the request method and
endpoint.  (The retryable status set is modelled from the spec, since
`pykalshi/_base.py` is not among the sources.) -/
theorem async_rate_limit_exhaustion (method endpoint : String)
    (r₁ r₂ r₃ : Response) (events : List TransportEvent)
    (h₁ : r₁.status_code = 429) (h₂ : r₂.status_code = 429) (h₃ : r₃.status_code = 429) :
    AsyncKalshiClient._request method endpoint 2
      (.response r₁ :: .response r₂ :: .response r₃ :: events) =
    some (.error (.rateLimit 429 (.str "Rate limit exceeded after retries")
      method endpoint), 3) := by
  simp [AsyncKalshiClient._request, AsyncKalshiClient._requestAux,
    AsyncKalshiClient.retryable_status, h₁, h₂, h₃]

/-- C4 witness with concrete 429 responses. -/
theorem async_rate_limit_exhaustion_witness :
    AsyncKalshiClient._request "GET" "/markets" 2
      [.response ⟨429, some [], ""⟩, .response ⟨429, some [], ""⟩,
       .response ⟨429, some [], ""⟩] =
    some (.error (.rateLimit 429 (.str "Rate limit exceeded after retries")
      "GET" "/markets"), 3) :=
  async_rate_limit_exhaustion "GET" "/markets" ⟨429, some [], ""⟩ ⟨429, some [], ""⟩
    ⟨429, some [], ""⟩ [] rfl rfl rfl

/-! ### C3 — two 429s then a 200 -/

/-- C3: with max retries 3 and a transport answering 429 twice then 200,
the request loop returns the 200 response, and `get` returns its parsed
body, after exactly 3 HTTP calls.  (Retryable status set and the async
response handler are modelled from the spec, `pykalshi/_base.py` not being
among the sources.) -/
theorem async_retry_then_success (endpoint : String) (r₁ r₂ r₃ : Response)
    (b : JObj) (events : List TransportEvent)
    (h₁ : r₁.status_code = 429) (h₂ : r₂.status_code = 429)
    (h₃ : r₃.status_code = 200) (hb : r₃.json = some b) :
    AsyncKalshiClient._request "GET" endpoint 3
      (.response r₁ :: .response r₂ :: .response r₃ :: events) = some (.ok r₃, 3) ∧
    AsyncKalshiClient.get 3 endpoint
      (.response r₁ :: .response r₂ :: .response r₃ :: events) = some (.ok b, 3) := by
  have hreq : AsyncKalshiClient._request "GET" endpoint 3
      (.response r₁ :: .response r₂ :: .response r₃ :: events) = some (.ok r₃, 3) := by
    simp [AsyncKalshiClient._request, AsyncKalshiClient._requestAux,
      AsyncKalshiClient.retryable_status, h₁, h₂, h₃]
  refine ⟨hreq, ?_⟩
  have hh : AsyncKalshiClient._handle_response r₃ = some (.ok b) := by
    simp [AsyncKalshiClient._handle_response, respond, h₃, hb]
  simp [AsyncKalshiClient.get, hreq, hh]

/-- C3 witness with concrete responses. -/
theorem async_retry_then_success_witness :
    AsyncKalshiClient._request "GET" "/markets" 3
      [.response ⟨429, some [], ""⟩, .response ⟨429, some [], ""⟩,
       .response ⟨200, some [("markets", .arr [])], ""⟩] =
      some (.ok ⟨200, some [("markets", .arr [])], ""⟩, 3) ∧
    AsyncKalshiClient.get 3 "/markets"
      [.response ⟨429, some [], ""⟩, .response ⟨429, some [], ""⟩,
       .response ⟨200, some [("markets", .arr [])], ""⟩] =
      some (.ok [("markets", .arr [])], 3) :=
  async_retry_then_success "/markets" ⟨429, some [], ""⟩ ⟨429, some [], ""⟩
    ⟨200, some [("markets", .arr [])], ""⟩ [("markets", .arr [])] [] rfl rfl rfl rfl

end Kalshi

namespace Kalshi

/-! ### C1 — response handler error taxonomy -/

/-- C1 counterexample: a 401 response whose body carries the exchange code
`insufficient_funds` is a non-404 error with an insufficient-funds code,
yet `_handle_response` raises `AuthenticationError` (the 401/403 check
precedes the code check), not `InsufficientFundsError`. -/
theorem handle_response_auth_precedence_cex :
    KalshiClient._handle_response
        ⟨401, some [("code", .str "insufficient_funds"), ("message", .str "no funds")], "raw"⟩ =
      some (.error (.authentication 401 (.str "no funds") (some (.str "insufficient_funds")))) ∧
    (401 : Nat) ≠ 404 ∧
    isInsufficientCode (extractedCode
        ⟨401, some [("code", .str "insufficient_funds"), ("message", .str "no funds")], "raw"⟩) = true ∧
    ∀ s m c, KalshiClient._handle_response
        ⟨401, some [("code", .str "insufficient_funds"), ("message", .str "no funds")], "raw"⟩ ≠
      some (.error (.insufficientFunds s m c)) := by
  refine ⟨rfl, by decide, rfl, ?_⟩
  intro s m c h
  have h' : (some (.error (.authentication 401 (.str "no funds")
        (some (.str "insufficient_funds")))) : Option (Except KalshiErr JObj)) =
      some (.error (.insufficientFunds s m c)) := h
  simp at h'

/-- C1 amended: for every response with a nonzero status code (the handler
coerces a falsy status to 500 first), `_handle_response` returns the parsed
JSON body when the status is below 400; it raises `AuthenticationError`
exactly when the status is 401 or 403, `ResourceNotFoundError` exactly when
it is 404, `InsufficientFundsError` exactly for an error status that is
none of 401/403/404 and whose extracted exchange code is
`insufficient_funds`/`insufficient_balance`, and a generic `KalshiAPIError`
for every other status at or above 400; when the error body is not
parseable JSON, the raised error's message is the raw response text and its
code is absent. -/
theorem handle_response_error_taxonomy (r : Response) (h0 : 0 < r.status_code) :
    (r.status_code < 400 → KalshiClient._handle_response r = r.json.map Except.ok) ∧
    ((∃ m c, KalshiClient._handle_response r =
        some (.error (.authentication r.status_code m c))) ↔
      (r.status_code = 401 ∨ r.status_code = 403)) ∧
    ((∃ m c, KalshiClient._handle_response r =
        some (.error (.resourceNotFound r.status_code m c))) ↔
      r.status_code = 404) ∧
    ((∃ m c, KalshiClient._handle_response r =
        some (.error (.insufficientFunds r.status_code m c))) ↔
      (400 ≤ r.status_code ∧ r.status_code ≠ 401 ∧ r.status_code ≠ 403 ∧
        r.status_code ≠ 404 ∧ isInsufficientCode (extractedCode r) = true)) ∧
    ((∃ m c, KalshiClient._handle_response r =
        some (.error (.apiError r.status_code m c))) ↔
      (400 ≤ r.status_code ∧ r.status_code ≠ 401 ∧ r.status_code ≠ 403 ∧
        r.status_code ≠ 404 ∧ isInsufficientCode (extractedCode r) = false)) ∧
    (r.json = none → 400 ≤ r.status_code →
      KalshiClient._handle_response r = some (.error (
        if r.status_code = 401 ∨ r.status_code = 403 then
          .authentication r.status_code (.str r.text) none
        else if r.status_code = 404 then
          .resourceNotFound r.status_code (.str r.text) none
        else .apiError r.status_code (.str r.text) none))) := by
  have hne : ¬ r.status_code = 0 := by omega
  have hunf : KalshiClient._handle_response r = respond r.status_code r.json r.text := by
    rw [KalshiClient._handle_response, if_neg hne]
  rcases Nat.lt_or_ge r.status_code 400 with hlt | hge
  · have heq : KalshiClient._handle_response r = r.json.map Except.ok := by
      rw [hunf, respond.eq_def, if_pos hlt]
    have hnoerr : ∀ e : KalshiErr, KalshiClient._handle_response r ≠ some (.error e) := by
      intro e h
      rw [heq] at h
      cases hj : r.json <;> rw [hj] at h <;> simp at h
    refine ⟨fun _ => heq, ?_, ?_, ?_, ?_, ?_⟩
    · refine ⟨fun ⟨m, c, h⟩ => absurd h (hnoerr _), fun h => ?_⟩
      rcases h with h' | h' <;> exact absurd h' (by omega)
    · exact ⟨fun ⟨m, c, h⟩ => absurd h (hnoerr _), fun h => absurd h (by omega)⟩
    · exact ⟨fun ⟨m, c, h⟩ => absurd h (hnoerr _), fun h => absurd h.1 (by omega)⟩
    · exact ⟨fun ⟨m, c, h⟩ => absurd h (hnoerr _), fun h => absurd h.1 (by omega)⟩
    · intro _ h400; exact absurd h400 (by omega)
  · have heq : KalshiClient._handle_response r = some (.error (
        if r.status_code = 401 ∨ r.status_code = 403 then
          .authentication r.status_code (extractedMessage r) (extractedCode r)
        else if r.status_code = 404 then
          .resourceNotFound r.status_code (extractedMessage r) (extractedCode r)
        else if isInsufficientCode (extractedCode r) then
          .insufficientFunds r.status_code (extractedMessage r) (extractedCode r)
        else .apiError r.status_code (extractedMessage r) (extractedCode r))) := by
      rw [hunf, respond.eq_def, if_neg (by omega : ¬ r.status_code < 400)]
      cases hj : r.json with
      | none =>
        simp only [extractedMessage, extractedCode, hj]
        split_ifs <;> rfl
      | some j =>
        simp only [extractedMessage, extractedCode, hj]
        split_ifs <;> rfl
    by_cases h401 : r.status_code = 401 ∨ r.status_code = 403
    · rw [if_pos h401] at heq
      refine ⟨fun h => absurd h (by omega),
        ⟨fun _ => h401, fun _ => ⟨extractedMessage r, extractedCode r, heq⟩⟩, ?_, ?_, ?_, ?_⟩
      · rw [heq]; constructor
        · rintro ⟨m, c, h⟩; simp at h
        · intro h404; rcases h401 with h' | h' <;> omega
      · rw [heq]; constructor
        · rintro ⟨m, c, h⟩; simp at h
        · rintro ⟨-, h₁, h₂, -, -⟩; rcases h401 with h' | h' <;> omega
      · rw [heq]; constructor
        · rintro ⟨m, c, h⟩; simp at h
        · rintro ⟨-, h₁, h₂, -, -⟩; rcases h401 with h' | h' <;> omega
      · intro hjn _
        rw [heq, if_pos h401,
          show extractedMessage r = .str r.text by simp [extractedMessage, hjn],
          show extractedCode r = none by simp [extractedCode, hjn]]
    · by_cases h404 : r.status_code = 404
      · rw [if_neg h401, if_pos h404] at heq
        refine ⟨fun h => absurd h (by omega), ?_,
          ⟨fun _ => h404, fun _ => ⟨extractedMessage r, extractedCode r, heq⟩⟩, ?_, ?_, ?_⟩
        · rw [heq]; constructor
          · rintro ⟨m, c, h⟩; simp at h
          · intro h'; rcases h' with h'' | h'' <;> omega
        · rw [heq]; constructor
          · rintro ⟨m, c, h⟩; simp at h
          · rintro ⟨-, -, -, h₄, -⟩; exact absurd h404 h₄
        · rw [heq]; constructor
          · rintro ⟨m, c, h⟩; simp at h
          · rintro ⟨-, -, -, h₄, -⟩; exact absurd h404 h₄
        · intro hjn _
          rw [heq, if_neg h401, if_pos h404,
            show extractedMessage r = .str r.text by simp [extractedMessage, hjn],
            show extractedCode r = none by simp [extractedCode, hjn]]
      · by_cases hins : isInsufficientCode (extractedCode r) = true
        · rw [if_neg h401, if_neg h404, if_pos hins] at heq
          refine ⟨fun h => absurd h (by omega), ?_, ?_, ?_, ?_, ?_⟩
          · rw [heq]; constructor
            · rintro ⟨m, c, h⟩; simp at h
            · intro h'; exact absurd h' h401
          · rw [heq]; constructor
            · rintro ⟨m, c, h⟩; simp at h
            · intro h'; exact absurd h' h404
          · exact ⟨fun _ => ⟨hge, fun h => h401 (Or.inl h), fun h => h401 (Or.inr h), h404, hins⟩,
              fun _ => ⟨extractedMessage r, extractedCode r, heq⟩⟩
          · rw [heq]; constructor
            · rintro ⟨m, c, h⟩; simp at h
            · rintro ⟨-, -, -, -, hf⟩; rw [hins] at hf; cases hf
          · intro hjn _
            exfalso
            have hc : extractedCode r = none := by simp [extractedCode, hjn]
            rw [hc] at hins
            simp [isInsufficientCode] at hins
        · have hins' : isInsufficientCode (extractedCode r) = false := by
            rw [Bool.not_eq_true] at hins; exact hins
          rw [if_neg h401, if_neg h404, if_neg hins] at heq
          refine ⟨fun h => absurd h (by omega), ?_, ?_, ?_, ?_, ?_⟩
          · rw [heq]; constructor
            · rintro ⟨m, c, h⟩; simp at h
            · intro h'; exact absurd h' h401
          · rw [heq]; constructor
            · rintro ⟨m, c, h⟩; simp at h
            · intro h'; exact absurd h' h404
          · rw [heq]; constructor
            · rintro ⟨m, c, h⟩; simp at h
            · rintro ⟨-, -, -, -, hf⟩; rw [hins'] at hf; cases hf
          · exact ⟨fun _ => ⟨hge, fun h => h401 (Or.inl h), fun h => h401 (Or.inr h), h404, hins'⟩,
              fun _ => ⟨extractedMessage r, extractedCode r, heq⟩⟩
          · intro hjn _
            rw [heq, if_neg h401, if_neg h404,
              show extractedMessage r = .str r.text by simp [extractedMessage, hjn],
              show extractedCode r = none by simp [extractedCode, hjn]]

/-- C1 witness: the taxonomy theorem applied to a concrete 404 response. -/
theorem handle_response_error_taxonomy_witness :
    (∃ m c, KalshiClient._handle_response ⟨404, some [], "x"⟩ =
        some (.error (.resourceNotFound 404 m c))) ↔ (404 : Nat) = 404 :=
  (handle_response_error_taxonomy ⟨404, some [], "x"⟩ (by decide)).2.2.1

end Kalshi

namespace Kalshi

/-! ### C2 — sync/async pipeline comparison -/

/-- C2 counterexample: on a transport that answers 429 then 200, the
synchronous client raises a generic API error after exactly 1 HTTP call
(it has no retry loop and no rate limiter), while the asynchronous client
(default max retries 3) retries and returns the 200 body after 2 calls —
the two deployment modes do not implement identical pipeline semantics. -/
theorem sync_async_pipeline_divergence_cex :
    KalshiClient.get "/markets"
        [.response ⟨429, some [], ""⟩, .response ⟨200, some [("a", .str "1")], ""⟩] =
      some (.error (.apiError 429 (.str "Unknown Error") none), 1) ∧
    AsyncKalshiClient.get 3 "/markets"
        [.response ⟨429, some [], ""⟩, .response ⟨200, some [("a", .str "1")], ""⟩] =
      some (.ok [("a", .str "1")], 2) ∧
    KalshiClient.get "/markets"
        [.response ⟨429, some [], ""⟩, .response ⟨200, some [("a", .str "1")], ""⟩] ≠
      AsyncKalshiClient.get 3 "/markets"
        [.response ⟨429, some [], ""⟩, .response ⟨200, some [("a", .str "1")], ""⟩] := by
  refine ⟨rfl, rfl, ?_⟩
  intro h
  have h' : (some (.error (.apiError 429 (.str "Unknown Error") none), 1) :
      Option (Except KalshiErr JObj × Nat)) = some (.ok [("a", .str "1")], 2) := h
  simp at h'

/-- C2 amended: the two modes agree only away from the retry path: for
every endpoint, retry budget and transport whose first event is a response
with a nonzero, non-retryable status (not 429 and not 5xx), the
synchronous and asynchronous `get` produce the same outcome and each
issues exactly one HTTP call.  On retryable statuses the modes diverge
(the synchronous client has no retry, backoff or rate-limiting), as the
counterexample shows.  (The async response handler is modelled from the
spec, `pykalshi/_base.py` not being among the sources.) -/
theorem sync_async_agree_on_nonretryable (endpoint : String) (maxRetries : Nat)
    (r : Response) (events : List TransportEvent)
    (h0 : 0 < r.status_code)
    (hnr : AsyncKalshiClient.retryable_status r.status_code = false) :
    KalshiClient.get endpoint (.response r :: events) =
      AsyncKalshiClient.get maxRetries endpoint (.response r :: events) ∧
    ∀ out n, KalshiClient.get endpoint (.response r :: events) = some (out, n) → n = 1 := by
  have hh : AsyncKalshiClient._handle_response r = KalshiClient._handle_response r := by
    rw [AsyncKalshiClient._handle_response, KalshiClient._handle_response,
      if_neg (show ¬ r.status_code = 0 by omega)]
  have hreq : AsyncKalshiClient._request "GET" endpoint maxRetries
      (.response r :: events) = some (.ok r, 1) := by
    rw [AsyncKalshiClient._request, AsyncKalshiClient._requestAux, if_pos hnr]
  constructor
  · rw [AsyncKalshiClient.get, hreq, KalshiClient.get]
    dsimp only
    rw [hh]
  · intro out n h
    rw [KalshiClient.get] at h
    cases hhr : KalshiClient._handle_response r <;> rw [hhr] at h
    · cases h
    · cases h; rfl

/-- C2 witness: a concrete 404 first response, on which both modes agree
with one call each. -/
theorem sync_async_agree_on_nonretryable_witness :
    (KalshiClient.get "/markets/X" [.response ⟨404, some [], "nf"⟩] =
      AsyncKalshiClient.get 3 "/markets/X" [.response ⟨404, some [], "nf"⟩]) ∧
    ∀ out n, KalshiClient.get "/markets/X" [.response ⟨404, some [], "nf"⟩] =
      some (out, n) → n = 1 :=
  sync_async_agree_on_nonretryable "/markets/X" 3 ⟨404, some [], "nf"⟩ []
    (by decide) rfl

end Kalshi

namespace Kalshi.AsyncKalshiClient

/-! ### C6 / C10 — pagination driver -/

theorem setKey_setKey (l : List (String × Option JVal)) (k : String)
    (v₁ v₂ : Option JVal) : setKey (setKey l k v₁) k v₂ = setKey l k v₂ := by
  induction l with
  | nil => simp [setKey]
  | cons kv t ih =>
    by_cases h : kv.1 = k
    · simp [setKey, h]
    · simp [setKey, h, ih]

theorem paginated_get_cons_stop (page : JObj) (rest : List JObj) (key : String)
    (params : List (String × Option JVal)) (fa : Bool) (items₀ : List JVal)
    (hpi : pageItems page key = some items₀)
    (hstop : fa = false ∨ pyTruthy (pageCursor page) = false) :
    paginated_get (page :: rest) key params fa =
      some (items₀, 1, [filterNone params]) := by
  rw [paginated_get]
  simp only [hpi]
  rw [if_pos hstop]

theorem paginated_get_cons_go (page : JObj) (rest : List JObj) (key : String)
    (params : List (String × Option JVal)) (items₀ : List JVal)
    (hpi : pageItems page key = some items₀)
    (hc : pyTruthy (pageCursor page) = true) :
    paginated_get (page :: rest) key params true =
      match paginated_get rest key (setKey params "cursor" (some (pageCursor page))) true with
      | none => none
      | some (its, n, ss) => some (items₀ ++ its, n + 1, filterNone params :: ss) := by
  rw [paginated_get]
  simp only [hpi]
  rw [if_neg (by simp [hc])]

theorem paginated_get_true_spec (key : String) :
    ∀ (pages : List JObj) (params : List (String × Option JVal))
      (items : List JVal) (n : Nat) (sents : List (List (String × JVal))),
      paginated_get pages key params true = some (items, n, sents) →
      ∃ consumed remaining, pages = consumed ++ remaining ∧
        consumed.length = n ∧ 1 ≤ n ∧
        (∀ p ∈ consumed, pageItems p key ≠ none) ∧
        items = (consumed.map fun p => (pageItems p key).getD []).flatten ∧
        (∀ p ∈ consumed.dropLast, pyTruthy (pageCursor p) = true) ∧
        (∀ p, consumed.getLast? = some p → pyTruthy (pageCursor p) = false) ∧
        sents = filterNone params ::
          (consumed.dropLast.map fun p =>
            filterNone (setKey params "cursor" (some (pageCursor p)))) := by
  intro pages
  induction pages with
  | nil =>
    intro params items n sents h
    simp [paginated_get] at h
  | cons page rest ih =>
    intro params items n sents h
    cases hpi : pageItems page key with
    | none =>
      rw [paginated_get] at h
      simp [hpi] at h
    | some items₀ =>
      by_cases hc : pyTruthy (pageCursor page) = true
      · rw [paginated_get_cons_go page rest key params items₀ hpi hc] at h
        cases hrec : paginated_get rest key
            (setKey params "cursor" (some (pageCursor page))) true with
        | none => rw [hrec] at h; cases h
        | some trip =>
          obtain ⟨its, n', ss⟩ := trip
          rw [hrec] at h
          obtain ⟨h1, h2, h3⟩ : items₀ ++ its = items ∧ n' + 1 = n ∧
              filterNone params :: ss = sents := by
            have hin := Option.some.inj h
            exact ⟨congrArg (·.1) hin, congrArg (·.2.1) hin, congrArg (·.2.2) hin⟩
          obtain ⟨consumed', remaining', hsplit, hlen, hone, hnn, hitems, hmid, hlast, hsents⟩ :=
            ih (setKey params "cursor" (some (pageCursor page))) its n' ss hrec
          have hcne : consumed' ≠ [] := by
            intro hcon
            rw [hcon] at hlen
            simp at hlen
            omega
          obtain ⟨c, cs, rfl⟩ := List.exists_cons_of_ne_nil hcne
          refine ⟨page :: c :: cs, remaining', by simp [hsplit], by simp at hlen ⊢; omega,
            by omega, ?_, ?_, ?_, ?_, ?_⟩
          · intro p hp
            rcases List.mem_cons.mp hp with rfl | hp'
            · simp [hpi]
            · exact hnn p hp'
          · subst h1
            rw [hitems]
            simp [hpi]
          · intro p hp
            rw [List.dropLast_cons_of_ne_nil (by simp : (c :: cs) ≠ [])] at hp
            rcases List.mem_cons.mp hp with rfl | hp'
            · exact hc
            · exact hmid p hp'
          · intro p hp
            rw [List.getLast?_cons_cons] at hp
            exact hlast p hp
          · rw [← h3, hsents, List.dropLast_cons_of_ne_nil (by simp : (c :: cs) ≠ []),
              List.map_cons]
            simp only [setKey_setKey]
      · have hc' : pyTruthy (pageCursor page) = false := by
          rw [Bool.not_eq_true] at hc
          exact hc
        rw [paginated_get_cons_stop page rest key params true items₀ hpi (Or.inr hc')] at h
        obtain ⟨h1, h2, h3⟩ : items₀ = items ∧ 1 = n ∧ [filterNone params] = sents := by
          have hin := Option.some.inj h
          exact ⟨congrArg (·.1) hin, congrArg (·.2.1) hin, congrArg (·.2.2) hin⟩
        subst h1; subst h2; subst h3
        refine ⟨[page], rest, rfl, rfl, le_refl 1, ?_, ?_, ?_, ?_, ?_⟩
        · intro p hp
          rcases List.mem_singleton.mp hp with rfl
          simp [hpi]
        · simp [hpi]
        · intro p hp
          simp at hp
        · intro p hp
          simp at hp
          subst hp
          exact hc'
        · simp

/-- C6: the pagination driver, over any sequence of page responses.  With
`fetch_all = false` it issues exactly one request and returns the first
page's `response_key` items (sending only the non-`None` params).  With
`fetch_all = true` it consumes a prefix of the page sequence, returning the
concatenation of the consumed pages' item arrays in page order, making one
request per consumed page; every consumed page except the last has a
truthy cursor, the last consumed page's cursor is empty/absent, and the
query parameters sent are the non-`None` entries of the caller's params
for the first request and of params with `cursor` set to the previous
page's cursor for each subsequent request. -/
theorem paginated_get_correct (pages : List JObj) (key : String)
    (params : List (String × Option JVal)) :
    (∀ page rest items, pages = page :: rest → pageItems page key = some items →
      paginated_get pages key params false = some (items, 1, [filterNone params])) ∧
    (∀ items n sents, paginated_get pages key params true = some (items, n, sents) →
      ∃ consumed remaining, pages = consumed ++ remaining ∧
        consumed.length = n ∧ 1 ≤ n ∧
        (∀ p ∈ consumed, pageItems p key ≠ none) ∧
        items = (consumed.map fun p => (pageItems p key).getD []).flatten ∧
        (∀ p ∈ consumed.dropLast, pyTruthy (pageCursor p) = true) ∧
        (∀ p, consumed.getLast? = some p → pyTruthy (pageCursor p) = false) ∧
        sents = filterNone params ::
          (consumed.dropLast.map fun p =>
            filterNone (setKey params "cursor" (some (pageCursor p))))) := by
  constructor
  · rintro page rest items rfl hpi
    exact paginated_get_cons_stop page rest key params false items hpi (Or.inl rfl)
  · intro items n sents h
    exact paginated_get_true_spec key pages params items n sents h

/-- C6 witness: the spec's two-page example — pages
`[{items:[A,B], cursor:"p2"}, {items:[C], cursor:""}]` with params
`{limit: 100, foo: None}`.  `fetch_all = false` yields `[A,B]` with one
call; `fetch_all = true` yields `[A,B,C]` with two calls, the second call
sending `cursor=p2`. -/
theorem paginated_get_correct_witness :
    paginated_get
        [[("items", JVal.arr [.str "A", .str "B"]), ("cursor", JVal.str "p2")],
         [("items", JVal.arr [.str "C"]), ("cursor", JVal.str "")]]
        "items" [("limit", some (JVal.num 100)), ("foo", none)] false =
      some ([.str "A", .str "B"], 1,
        [filterNone [("limit", some (JVal.num 100)), ("foo", none)]]) ∧
    (∃ consumed remaining,
      ([[("items", JVal.arr [.str "A", .str "B"]), ("cursor", JVal.str "p2")],
        [("items", JVal.arr [.str "C"]), ("cursor", JVal.str "")]] : List JObj) =
          consumed ++ remaining ∧
      consumed.length = 2 ∧ 1 ≤ 2 ∧
      (∀ p ∈ consumed, pageItems p "items" ≠ none) ∧
      ([.str "A", .str "B", .str "C"] : List JVal) =
        (consumed.map fun p => (pageItems p "items").getD []).flatten ∧
      (∀ p ∈ consumed.dropLast, pyTruthy (pageCursor p) = true) ∧
      (∀ p, consumed.getLast? = some p → pyTruthy (pageCursor p) = false) ∧
      ([[("limit", JVal.num 100)], [("limit", JVal.num 100), ("cursor", JVal.str "p2")]] :
          List (List (String × JVal))) =
        filterNone [("limit", some (JVal.num 100)), ("foo", none)] ::
          (consumed.dropLast.map fun p =>
            filterNone (setKey [("limit", some (JVal.num 100)), ("foo", none)]
              "cursor" (some (pageCursor p))))) :=
  ⟨(paginated_get_correct
      [[("items", JVal.arr [.str "A", .str "B"]), ("cursor", JVal.str "p2")],
       [("items", JVal.arr [.str "C"]), ("cursor", JVal.str "")]]
      "items" [("limit", some (JVal.num 100)), ("foo", none)]).1
    [("items", JVal.arr [.str "A", .str "B"]), ("cursor", JVal.str "p2")]
    [[("items", JVal.arr [.str "C"]), ("cursor", JVal.str "")]]
    [.str "A", .str "B"] rfl rfl,
   (paginated_get_correct
      [[("items", JVal.arr [.str "A", .str "B"]), ("cursor", JVal.str "p2")],
       [("items", JVal.arr [.str "C"]), ("cursor", JVal.str "")]]
      "items" [("limit", some (JVal.num 100)), ("foo", none)]).2
    [.str "A", .str "B", .str "C"] 2
    [[("limit", JVal.num 100)], [("limit", JVal.num 100), ("cursor", JVal.str "p2")]] rfl⟩

theorem pg_loop_frames (key : String) (fa : Bool) (localRef : Nat) :
    ∀ (pages : List JObj) (st : Store) (j : Nat), j ≠ localRef →
      ((pg_loop key fa localRef pages st).2)[j]? = st[j]? := by
  intro pages
  induction pages with
  | nil => intro st j _; rfl
  | cons page rest ih =>
    intro st j hj
    rw [pg_loop]
    cases hpi : pageItems page key with
    | none => simp [hpi]
    | some items =>
      simp only [hpi]
      by_cases hstop : fa = false ∨ pyTruthy (pageCursor page) = false
      · rw [if_pos hstop]
      · rw [if_neg hstop]
        cases hrec : pg_loop key fa localRef rest
            (st.set localRef (setKey (st.getD localRef []) "cursor"
              (some (pageCursor page)))) with
        | mk res s =>
          have hs : s[j]? = st[j]? := by
            have := ih (st.set localRef (setKey (st.getD localRef []) "cursor"
              (some (pageCursor page)))) j hj
            rw [hrec] at this
            rw [this, List.getElem?_set_ne (Ne.symm hj)]
          cases res with
          | none => simpa using hs
          | some pr =>
            obtain ⟨its, n⟩ := pr
            simpa using hs

/-- C10: the pagination driver never mutates the caller's params dict.  In
the store model, `paginated_get` first copies the caller's dict
(`params = dict(params)`) into a fresh cell and performs every
`params["cursor"] = cursor` assignment on that copy only, so after the call
every pre-existing store cell — in particular the caller's — holds exactly
what it held before, however many pages were fetched. -/
theorem paginated_get_params_not_mutated (pages : List JObj) (key : String)
    (fa : Bool) (store : Store) (callerRef : Nat) (i : Nat) (hi : i < store.length) :
    ((paginated_get_heap pages key fa store callerRef).2)[i]? = store[i]? := by
  rw [paginated_get_heap]
  rw [pg_loop_frames key fa store.length pages (store ++ [store.getD callerRef []]) i
    (by omega)]
  rw [List.getElem?_append, if_pos hi]

/-- C10 witness: a concrete run that does set a cursor on the local copy
(truthy cursor, `fetch_all = true`) leaves the caller's dict cell
unchanged. -/
theorem paginated_get_params_not_mutated_witness :
    ((paginated_get_heap
        [[("items", JVal.arr [.str "A"]), ("cursor", JVal.str "p2")],
         [("items", JVal.arr [.str "B"]), ("cursor", JVal.str "")]]
        "items" true [[("limit", some (JVal.num 100))]] 0).2)[0]? =
      ([[("limit", some (JVal.num 100))]] : Store)[0]? :=
  paginated_get_params_not_mutated
    [[("items", JVal.arr [.str "A"]), ("cursor", JVal.str "p2")],
     [("items", JVal.arr [.str "B"]), ("cursor", JVal.str "")]]
    "items" true [[("limit", some (JVal.num 100))]] 0 0 (by decide)

end Kalshi.AsyncKalshiClient

namespace Kalshi

/-! ### C5 — the query string is excluded from signing -/

theorem takeWhile_comp (p q : Char → Bool) (l : List Char) :
    (l.takeWhile p).takeWhile q = l.takeWhile fun c => p c && q c := by
  induction l with
  | nil => rfl
  | cons c t ih =>
    cases hp : p c <;> cases hq : q c <;>
      simp [List.takeWhile_cons, hp, hq, ih]

theorem takeWhile_append_all (p : Char → Bool) (l₁ l₂ : List Char)
    (h : ∀ c ∈ l₁, p c = true) :
    (l₁ ++ l₂).takeWhile p = l₁ ++ l₂.takeWhile p := by
  induction l₁ with
  | nil => rfl
  | cons c t ih =>
    have hc := h c (List.mem_cons_self c t)
    simp only [List.cons_append, List.takeWhile_cons, hc, if_true, List.cons.injEq, true_and]
    exact ih fun a ha => h a (List.mem_cons_of_mem c ha)

theorem takeWhile_append_stop (p : Char → Bool) (l₁ l₂ : List Char) (c₀ : Char)
    (h : ∀ c ∈ l₁, p c = true) (hc : p c₀ = false) :
    (l₁ ++ c₀ :: l₂).takeWhile p = l₁ := by
  rw [takeWhile_append_all p l₁ (c₀ :: l₂) h]
  simp [List.takeWhile_cons, hc]

theorem takeWhile_append_of_bad (p : Char → Bool) (l₁ l₂ : List Char)
    (h : ¬ ∀ c ∈ l₁, p c = true) :
    (l₁ ++ l₂).takeWhile p = l₁.takeWhile p := by
  induction l₁ with
  | nil => exact absurd (by simp) h
  | cons c t ih =>
    cases hp : p c
    · simp [List.takeWhile_cons, hp]
    · have h' : ¬ ∀ a ∈ t, p a = true := by
        intro hall
        apply h
        intro a ha
        rcases List.mem_cons.mp ha with rfl | ha'
        · exact hp
        · exact hall a ha'
      simp only [List.cons_append, List.takeWhile_cons, hp, if_true, List.cons.injEq, true_and]
      exact ih h'

theorem takeWhile_eq_self_of_all (p : Char → Bool) (l : List Char)
    (h : ∀ c ∈ l, p c = true) : l.takeWhile p = l := by
  induction l with
  | nil => rfl
  | cons c t ih =>
    simp only [List.takeWhile_cons, h c (List.mem_cons_self c t), if_true,
      List.cons.injEq, true_and]
    exact ih fun a ha => h a (List.mem_cons_of_mem _ ha)

theorem mem_takeWhile_mem {p : Char → Bool} {l : List Char} {a : Char}
    (h : a ∈ l.takeWhile p) : a ∈ l := by
  induction l with
  | nil => simp [List.takeWhile] at h
  | cons c t ih =>
    rw [List.takeWhile_cons] at h
    cases hp : p c <;> rw [hp] at h
    · simp at h
    · rcases List.mem_cons.mp h with rfl | h'
      · exact List.mem_cons_self _ _
      · exact List.mem_cons_of_mem _ (ih h')

theorem takeWhile_decomp (p : Char → Bool) (l : List Char) :
    l.takeWhile p = l ∨ ∃ c t, l = l.takeWhile p ++ c :: t ∧ p c = false := by
  induction l with
  | nil => left; rfl
  | cons a l' ih =>
    cases hp : p a
    · right
      exact ⟨a, l', by simp [List.takeWhile_cons, hp], hp⟩
    · rcases ih with h | ⟨c, t, hdec, hc⟩
      · left
        simp [List.takeWhile_cons, hp, h]
      · right
        refine ⟨c, t, ?_, hc⟩
        simp only [List.takeWhile_cons, hp, if_true, List.cons_append, List.cons.injEq, true_and]
        exact hdec

theorem dropWhile_takeWhile_comm (d q : Char → Bool)
    (h : ∀ c, d c = true → q c = true) (l : List Char) :
    (l.takeWhile q).dropWhile d = (l.dropWhile d).takeWhile q := by
  induction l with
  | nil => rfl
  | cons c t ih =>
    cases hd : d c
    · cases hq : q c <;>
        simp [List.takeWhile_cons, List.dropWhile_cons, hq, hd]
    · have hqc := h c hd
      simp [List.takeWhile_cons, List.dropWhile_cons, hd, hqc, ih]

theorem validScheme_all {pre : List Char} (h : validScheme pre = true) :
    ∀ c ∈ pre, schemeChar c = true := by
  match pre with
  | [] => cases h
  | c :: rest =>
    rw [validScheme, Bool.and_eq_true] at h
    exact fun a ha => List.all_eq_true.mp h.2 a ha

theorem schemeChar_ne_q {c : Char} (h : schemeChar c = true) : (c != '?') = true := by
  cases hbe : (c != '?')
  · have hc : c = '?' := by simpa using hbe
    rw [hc] at h
    exact absurd h (by decide)
  · rfl

theorem splitScheme_strip (cs : List Char) :
    splitScheme (cs.takeWhile (· != '?')) = (splitScheme cs).takeWhile (· != '?') := by
  rcases takeWhile_decomp (· != ':') cs with hself | ⟨c, t, hdec, hcfalse⟩
  · -- no ':' in cs: both sides are the identity
    have hall : ∀ a ∈ cs, (a != ':') = true := by
      intro a ha
      rw [← hself] at ha
      exact @List.mem_takeWhile_imp _ (· != ':') _ _ ha
    have h1 : splitScheme cs = cs := by
      rw [splitScheme, if_neg]
      rintro ⟨hlen, -⟩
      rw [hself] at hlen
      omega
    rw [h1]
    have hall' : ∀ a ∈ cs.takeWhile (· != '?'), (a != ':') = true :=
      fun a ha => hall a (mem_takeWhile_mem ha)
    rw [splitScheme, if_neg]
    rintro ⟨hlen, -⟩
    rw [takeWhile_eq_self_of_all _ _ hall'] at hlen
    omega
  · -- cs = pre ++ ':' :: t with pre the run before the first ':'
    have hcolon : c = ':' := by simpa using hcfalse
    subst hcolon
    have hpreall : ∀ a ∈ cs.takeWhile (· != ':'), (a != ':') = true :=
      fun a ha => @List.mem_takeWhile_imp _ (· != ':') _ _ ha
    by_cases hv : validScheme (cs.takeWhile (· != ':')) = true
    · -- a valid scheme: it survives query-stripping and both sides drop it
      have hpre? : ∀ a ∈ cs.takeWhile (· != ':'), (a != '?') = true :=
        fun a ha => schemeChar_ne_q (validScheme_all hv a ha)
      have hsq : cs.takeWhile (· != '?') =
          cs.takeWhile (· != ':') ++ ':' :: t.takeWhile (· != '?') := by
        conv_lhs => rw [hdec]
        rw [takeWhile_append_all _ _ _ hpre?, List.takeWhile_cons, if_pos (by decide)]
      have hdrop : ∀ X : List Char,
          (cs.takeWhile (· != ':') ++ ':' :: X).drop
            ((cs.takeWhile (· != ':')).length + 1) = X := by
        intro X
        rw [show cs.takeWhile (· != ':') ++ ':' :: X =
          (cs.takeWhile (· != ':') ++ [':']) ++ X by simp]
        rw [show (cs.takeWhile (· != ':')).length + 1 =
          (cs.takeWhile (· != ':') ++ [':']).length by simp]
        exact List.drop_left _ _
      have hpresplit : (cs.takeWhile (· != ':') ++ ':' :: t.takeWhile (· != '?')).takeWhile
          (· != ':') = cs.takeWhile (· != ':') :=
        takeWhile_append_stop _ _ _ ':' hpreall (by decide)
      have hlen1 : (cs.takeWhile (· != ':')).length < cs.length := by
        conv_rhs => rw [hdec]
        simp only [List.length_append, List.length_cons]
        omega
      have hRHS : splitScheme cs = t := by
        rw [splitScheme, if_pos ⟨hlen1, hv⟩,
          congrArg (List.drop ((cs.takeWhile (· != ':')).length + 1)) hdec]
        exact hdrop t
      have hlen2 : ((cs.takeWhile (· != ':') ++ ':' :: t.takeWhile (· != '?')).takeWhile
          (· != ':')).length <
          (cs.takeWhile (· != ':') ++ ':' :: t.takeWhile (· != '?')).length := by
        rw [hpresplit]
        simp only [List.length_append, List.length_cons]
        omega
      have hv2 : validScheme ((cs.takeWhile (· != ':') ++
          ':' :: t.takeWhile (· != '?')).takeWhile (· != ':')) = true := by
        rw [hpresplit]
        exact hv
      rw [hRHS, hsq, splitScheme, if_pos ⟨hlen2, hv2⟩, hpresplit]
      exact hdrop (t.takeWhile (· != '?'))
    · -- not a valid scheme: both sides are the identity
      have hRHS : splitScheme cs = cs := by
        rw [splitScheme, if_neg]
        rintro ⟨-, hvv⟩
        exact hv hvv
      rw [hRHS]
      by_cases hq : ∀ a ∈ cs.takeWhile (· != ':'), (a != '?') = true
      · -- no '?' before the first ':': the pre-colon run survives, still invalid
        have hsq : cs.takeWhile (· != '?') =
            cs.takeWhile (· != ':') ++ ':' :: t.takeWhile (· != '?') := by
          conv_lhs => rw [hdec]
          rw [takeWhile_append_all _ _ _ hq, List.takeWhile_cons, if_pos (by decide)]
        have hpresplit : (cs.takeWhile (· != ':') ++ ':' :: t.takeWhile (· != '?')).takeWhile
            (· != ':') = cs.takeWhile (· != ':') :=
          takeWhile_append_stop _ _ _ ':' hpreall (by decide)
        rw [hsq, splitScheme, hpresplit, if_neg]
        rintro ⟨-, hvv⟩
        exact hv hvv
      · -- a '?' occurs before the first ':': stripping removes the ':' entirely
        have hsq : cs.takeWhile (· != '?') = (cs.takeWhile (· != ':')).takeWhile (· != '?') := by
          conv_lhs => rw [hdec]
          exact takeWhile_append_of_bad _ _ _ hq
        have hnocolon : ∀ a ∈ (cs.takeWhile (· != ':')).takeWhile (· != '?'),
            (a != ':') = true :=
          fun a ha => hpreall a (mem_takeWhile_mem ha)
        rw [hsq, splitScheme, if_neg]
        rintro ⟨hlen, -⟩
        rw [takeWhile_eq_self_of_all _ _ hnocolon] at hlen
        omega

theorem splitNetloc_strip (cs : List Char) :
    splitNetloc (cs.takeWhile (· != '?')) = (splitNetloc cs).takeWhile (· != '?') := by
  match cs with
  | [] => rfl
  | [c] =>
    cases hc : (c != '?') <;> simp [splitNetloc, List.takeWhile_cons, hc]
  | c₁ :: c₂ :: rest =>
    by_cases h12 : c₁ = '/' ∧ c₂ = '/'
    · obtain ⟨rfl, rfl⟩ := h12
      have hnq : ∀ c, netChar c = true → (c != '?') = true := by
        intro c hcn
        simp only [netChar, Bool.and_eq_true] at hcn
        exact hcn.1.2
      simp only [List.takeWhile_cons, if_pos (by decide : (('/' : Char) != '?') = true)]
      simp only [splitNetloc, and_self, if_true]
      exact dropWhile_takeWhile_comm netChar _ hnq rest
    · cases hc₁ : (c₁ != '?')
      · simp [splitNetloc, List.takeWhile_cons, hc₁, h12]
      · cases hc₂ : (c₂ != '?')
        · simp [splitNetloc, List.takeWhile_cons, hc₁, hc₂, h12]
        · simp [splitNetloc, List.takeWhile_cons, hc₁, hc₂, h12]

theorem splitQF_strip (v : List Char) :
    splitQuery (splitFragment (v.takeWhile (· != '?'))) = splitQuery (splitFragment v) := by
  show ((v.takeWhile (· != '?')).takeWhile (· != '#')).takeWhile (· != '?') =
    (v.takeWhile (· != '#')).takeWhile (· != '?')
  have hfun : (fun c : Char => ((c != '?') && (c != '#')) && (c != '?')) =
      (fun c : Char => (c != '#') && (c != '?')) := by
    funext c
    cases c != '?' <;> cases c != '#' <;> rfl
  rw [takeWhile_comp (· != '?') (· != '#') v, takeWhile_comp _ (· != '?') v,
    takeWhile_comp (· != '#') (· != '?') v, hfun]

theorem urlparse_path_strip (s : String) :
    urlparse_path (strip_query s) = urlparse_path s := by
  refine congrArg (fun l => (⟨splitParams l⟩ : String)) ?_
  show splitQuery (splitFragment (splitNetloc (splitScheme (s.data.takeWhile (· != '?'))))) =
    splitQuery (splitFragment (splitNetloc (splitScheme s.data)))
  rw [splitScheme_strip, splitNetloc_strip, splitQF_strip]

/-- C5: for every endpoint and fixed timestamp, the message signed by the
client is identical for the endpoint and for the endpoint with its query
string removed (everything from the first `?` on) — the query string is
excluded from signing because `_get_headers` signs over
`urlparse(endpoint).path` only — while the request URL, built as
`api_base + endpoint`, keeps the full endpoint: whenever stripping the
query actually changes the endpoint, the two URLs differ even though the
signed messages agree. -/
theorem query_excluded_from_signing (endpoint method ts : String) :
    sign_message ts method (signed_path endpoint) =
      sign_message ts method (signed_path (strip_query endpoint)) ∧
    ∀ api_base, endpoint ≠ strip_query endpoint →
      request_url api_base endpoint ≠ request_url api_base (strip_query endpoint) := by
  constructor
  · rw [sign_message, sign_message, signed_path, signed_path, urlparse_path_strip]
  · intro base hne habs
    apply hne
    rw [request_url, request_url] at habs
    have hd := congrArg String.data habs
    simp only [String.data_append] at hd
    exact String.ext (List.append_cancel_left hd)

/-- C5 witness: signing `GET /markets?status=open` produces the same signed
message as signing `GET /markets` at the same timestamp, while the two
request URLs differ. -/
theorem query_excluded_from_signing_witness :
    sign_message "1700000000000" "GET" (signed_path "/markets?status=open") =
      sign_message "1700000000000" "GET" (signed_path "/markets") ∧
    request_url "https://api.elections.kalshi.com/trade-api/v2" "/markets?status=open" ≠
      request_url "https://api.elections.kalshi.com/trade-api/v2"
        (strip_query "/markets?status=open") := by
  have h := query_excluded_from_signing "/markets?status=open" "GET" "1700000000000"
  have hs : strip_query "/markets?status=open" = "/markets" := by decide
  exact ⟨hs ▸ h.1, h.2 "https://api.elections.kalshi.com/trade-api/v2" (by decide)⟩

end Kalshi
